import Mathlib

/-!
Verification of the tts_letters audio quality / pronunciation validation pipeline.

Shallow embedding of `src/check_audio_quality.py` and
`src/validate_audio_pronunciations.py`. Strings are modelled as `List Char`
(ASCII fragment of Python text semantics), real-valued audio metrics as `ℚ`.
The decode step (librosa/soundfile) and the speech-recognition model are
external inputs: the embedding takes the decoded metrics, respectively an
abstract transcriber function, as parameters and models everything after
that point directly from the Python source.
-/

namespace TTSLetters

/-! ## Decimal rounding (Python `round(x, k)` on exact decimal values)

Python `round` uses round-half-to-even. The source rounds scores to 2
decimals and durations to 3 decimals before storing them. -/

/-- Round a rational to the nearest integer, ties to even (Python `round`). -/
def roundHalfEven (q : ℚ) : ℤ :=
  let f := ⌊q⌋
  let r := q - (f : ℚ)
  if r < 1/2 then f
  else if 1/2 < r then f + 1
  else if f % 2 = 0 then f else f + 1

/-- Python `round(q, 2)`. -/
def round2 (q : ℚ) : ℚ := (roundHalfEven (q * 100) : ℚ) / 100

/-- Python `round(q, 3)`. -/
def round3 (q : ℚ) : ℚ := (roundHalfEven (q * 1000) : ℚ) / 1000

/-- Python `round(q, 4)`. -/
def round4 (q : ℚ) : ℚ := (roundHalfEven (q * 10000) : ℚ) / 10000

/-! ## Quality checker (`src/check_audio_quality.py`)

`AudioQualityChecker.check_file` loads the audio and computes
`duration = len(audio)/sr`, `rms = sqrt(mean(audio**2))`,
`peak = max(abs(audio))` and the fraction of samples below the silence
threshold.  The embedding takes these four decoded metrics together with the
filename stem; file-path/container fields (`file_path`, `relative_path`,
`sample_rate`, `channels`, `bit_depth`) are I/O glue and are omitted. -/

/-- Result record of `check_file` (the dataclass `AudioQualityResult`,
minus the path/container glue fields). -/
structure AudioQualityResult where
  letter : List Char
  engine : List Char
  variant : List Char
  duration_sec : ℚ
  rms_level : ℚ
  peak_level : ℚ
  is_clipping : Bool
  is_too_quiet : Bool
  has_silence : Bool
  quality_score : ℚ
  issues : List String
deriving Repr, DecidableEq

/-- Embedding of `AudioQualityChecker.check_file` (lines 148-211): filename
metadata parsing, issue detection against the fixed thresholds
(`clipping_threshold = 0.99`, `min_rms = 0.01`, `min_duration = 0.3`,
`max_duration = 3.0`, `silence_ratio_threshold = 0.7`) and the quality
score `max(0, min(100, 100 - 15*len(issues) - 10*abs(duration-1)))`,
stored rounded to two decimals. -/
def check_file (stem : List Char) (duration rms peak silence_fraction : ℚ) :
    AudioQualityResult :=
  let parts := stem.splitOn '_'
  let engine := parts.getD 0 ("unknown".data)
  let variant := parts.getD 1 ("unknown".data)
  let letter :=
    match parts.getLast? with
    | some p => p.map Char.toUpper
    | none => "unknown".data
  let is_clipping : Bool := 99/100 ≤ peak
  let is_too_quiet : Bool := rms < 1/100
  let has_silence : Bool := 7/10 < silence_fraction
  let issues : List String :=
    (if is_clipping then ["clipping"] else []) ++
    (if is_too_quiet then ["too_quiet"] else []) ++
    (if duration < 3/10 then ["too_short"]
     else if 3 < duration then ["too_long"] else []) ++
    (if has_silence then ["mostly_silent"] else [])
  let score := max 0 (min 100 (100 - (issues.length : ℚ) * 15 - |duration - 1| * 10))
  { letter := letter
    engine := engine
    variant := variant
    duration_sec := round3 duration
    rms_level := round4 rms
    peak_level := round4 peak
    is_clipping := is_clipping
    is_too_quiet := is_too_quiet
    has_silence := has_silence
    quality_score := round2 score
    issues := issues }

/-- Median duration as computed by `_generate_summary` (line 240):
`round(sorted(durations)[len(durations)//2], 3)` over the per-file
`duration_sec` values.  Python `sorted` is ascending merge sort. -/
def summary_median_duration (results : List AudioQualityResult) : ℚ :=
  let durations := results.map (fun r => r.duration_sec)
  round3 ((durations.mergeSort (fun a b => a ≤ b)).getD (durations.length / 2) 0)

/-! ## Process exit codes

`check_audio_quality.main` (lines 279-303): exit 1 when the audio libraries
failed to import; otherwise run `check_all_files`, which returns the empty
dict `{}` when the libraries are missing, the base directory does not exist,
or no WAV files are found, and otherwise a report whose
`summary.issues_found` records whether any issue was counted.  `main` exits 1
only when the report is non-empty (truthy) and `issues_found` is true; the
empty-report case falls into the success branch and exits 0. -/

/-- Abstraction of `check_all_files` (lines 79-136): `none` models the empty
dict `{}` returned on missing libraries, missing directory or zero WAV
files; `some b` models a full report with `summary.issues_found = b`. -/
def check_all_files_summary (working dir_exists : Bool) (num_wav : Nat)
    (issues_found : Bool) : Option Bool :=
  if working = false then none
  else if dir_exists = false then none
  else if num_wav = 0 then none
  else some issues_found

/-- Exit code of `check_audio_quality.main` as a function of the run
environment (library import success, directory existence, WAV file count,
whether any issue was found), barring unexpected exceptions (which exit 1). -/
def quality_main_exit (working dir_exists : Bool) (num_wav : Nat)
    (issues_found : Bool) : Nat :=
  if working = false then 1
  else
    match check_all_files_summary working dir_exists num_wav issues_found with
    | none => 0
    | some b => if b then 1 else 0

/-- Exit code of `validate_audio_pronunciations.main` (lines 453-527) as a
function of the run environment.  The function body contains no `sys.exit`
call on any path: model-load failure and empty stats take early `return`,
and the mismatch/success paths both fall off the end of `main`, so the
process exits 0 in every modelled case (only an uncaught exception, re-raised
at line 536, yields a nonzero exit). -/
def validator_main_exit (_model_loaded _dir_has_files _any_mismatch : Bool) : Nat :=
  0

/-! ## Pronunciation validator (`src/validate_audio_pronunciations.py`)

Transcripts, filename stems and letter variants are `List Char`; the
speech-recognition backend is an abstract function from the stem to a
`(text, confidence, duration)` triple. -/

/-- Python `str.isspace` characters relevant to `\s` in an ASCII regex:
space, tab, newline, carriage return, vertical tab, form feed. -/
def pyIsSpace (c : Char) : Bool :=
  c = ' ' || c = '\t' || c = '\n' || c = '\r' || c = '\x0b' || c = '\x0c'

/-- Regex class `\w` (ASCII fragment): alphanumeric or underscore. -/
def isWordChar (c : Char) : Bool :=
  c.isAlphanum || c = '_'

/-- Python `str.strip()`: drop leading and trailing whitespace. -/
def pyStrip (s : List Char) : List Char :=
  ((s.dropWhile pyIsSpace).reverse.dropWhile pyIsSpace).reverse

/-- Normalization applied in `matches_expected_letter` (line 195):
`re.sub` of the class complement of `\w` and `\s` with the empty string,
applied to the lower-cased and stripped transcript — lower-case, strip,
then delete every character that is neither a word character nor
whitespace. -/
def normalize_transcript (s : List Char) : List Char :=
  (pyStrip (s.map Char.toLower)).filter (fun c => isWordChar c || pyIsSpace c)

/-- The `letter_patterns` dictionary (lines 60-87): accepted spelling
variants per uppercase letter; `none` for keys outside the table. -/
def letter_patterns (c : Char) : Option (List (List Char)) :=
  match c with
  | 'A' => some ["a".data, "ay".data, "eh".data, "aye".data]
  | 'B' => some ["b".data, "be".data, "bee".data]
  | 'C' => some ["c".data, "see".data, "sea".data]
  | 'D' => some ["d".data, "de".data, "dee".data]
  | 'E' => some ["e".data, "ee".data, "ea".data]
  | 'F' => some ["f".data, "ef".data, "eff".data]
  | 'G' => some ["g".data, "ge".data, "gee".data, "jee".data]
  | 'H' => some ["h".data, "aych".data, "aitch".data, "ache".data]
  | 'I' => some ["i".data, "eye".data, "aye".data]
  | 'J' => some ["j".data, "jay".data, "jey".data]
  | 'K' => some ["k".data, "kay".data, "kaye".data]
  | 'L' => some ["l".data, "el".data, "ell".data]
  | 'M' => some ["m".data, "em".data, "emm".data]
  | 'N' => some ["n".data, "en".data, "enn".data]
  | 'O' => some ["o".data, "oh".data, "owe".data]
  | 'P' => some ["p".data, "pe".data, "pee".data]
  | 'Q' => some ["q".data, "que".data, "queue".data, "cue".data]
  | 'R' => some ["r".data, "ar".data, "arr".data]
  | 'S' => some ["s".data, "es".data, "ess".data]
  | 'T' => some ["t".data, "te".data, "tee".data]
  | 'U' => some ["u".data, "you".data, "yoo".data]
  | 'V' => some ["v".data, "ve".data, "vee".data]
  | 'W' => some ["w".data, "double u".data, "double you".data, "dub".data]
  | 'X' => some ["x".data, "ex".data, "eks".data]
  | 'Y' => some ["y".data, "why".data, "wy".data]
  | 'Z' => some ["z".data, "ze".data, "zee".data, "zed".data]
  | _ => none

/-- Lookup with fallback, `self.letter_patterns.get(expected_letter,
[expected_letter.lower()])` (line 198). -/
def get_valid_patterns (expected : Char) : List (List Char) :=
  (letter_patterns expected).getD [[expected.toLower]]

/-- Python substring test `sub in s` on lists of characters. -/
def hasSubstr (s sub : List Char) : Bool :=
  s.tails.any (fun t => sub.isPrefixOf t)

/-- Embedding of `matches_expected_letter` (lines 180-209): empty transcript
fails; otherwise normalize, then accept when some accepted variant is a
substring of the normalized transcript or vice versa, or when the normalized
transcript is the single lower-cased expected letter. -/
def matches_expected_letter (transcribed : List Char) (expected : Char) : Bool :=
  if transcribed = [] then false
  else
    let t := normalize_transcript transcribed
    if (get_valid_patterns expected).any (fun p => hasSubstr t p || hasSubstr p t) then
      true
    else if t.length = 1 ∧ t = [expected.toLower] then
      true
    else
      false

/-- Core of `extract_letter_from_filename`:
`re.search` of the pattern `_([a-z])$` on the lower-cased stem `f`.  Python `$`
matches at the end of the string or just before a single newline at the end
of the string, hence the extra first arm. -/
def find_trailing_letter (f : List Char) : Option Char :=
  match f.reverse with
  | '\n' :: c :: '_' :: _ => if 'a' ≤ c ∧ c ≤ 'z' then some c else none
  | c :: '_' :: _ => if 'a' ≤ c ∧ c ≤ 'z' then some c else none
  | _ => none

/-- Embedding of `extract_letter_from_filename` (lines 110-119): lower-case
the filename stem, search for `_([a-z])$`, return the captured letter
upper-cased. -/
def extract_letter_from_filename (stem : List Char) : Option Char :=
  (find_trailing_letter (stem.map Char.toLower)).map Char.toUpper

/-- Boolean form of the condition under which the regex `_([a-z])$` finds a
match in `f`: `f` ends with an underscore and one lowercase letter,
optionally followed by a single trailing newline. -/
def ends_lower_letter (f : List Char) : Bool :=
  match f.reverse with
  | '\n' :: c :: '_' :: _ => 'a' ≤ c && c ≤ 'z'
  | c :: '_' :: _ => 'a' ≤ c && c ≤ 'z'
  | _ => false

/-- Abstract speech-recognition backend: stem ↦ (transcribed text,
confidence, duration), the triple `transcribe_audio` returns. -/
abbrev Transcriber := List Char → List Char × ℚ × ℚ

/-- The `ValidationResult` dataclass (lines 24-38); `relative_path` is
path-arithmetic glue and is omitted, `file_path` holds the stem. -/
structure ValidationResult where
  file_path : List Char
  expected_letter : List Char
  transcribed_text : List Char
  is_match : Bool
  confidence : ℚ
  audio_duration_seconds : ℚ
  error_type : Option String
  validation_score : ℚ
deriving Repr, DecidableEq

/-- Embedding of `validate_file` (lines 211-268): extract the expected
letter (terminal `invalid_filename` on failure, transcriber not consulted),
transcribe (terminal `transcription_failed` on empty text, with confidence
recorded as 0), otherwise match and score: 100 on match, `confidence * 100`
on mismatch. -/
def validate_file (stem : List Char) (transcribe : Transcriber) : ValidationResult :=
  match extract_letter_from_filename stem with
  | none =>
    { file_path := stem
      expected_letter := "UNKNOWN".data
      transcribed_text := []
      is_match := false
      confidence := 0
      audio_duration_seconds := 0
      error_type := some "invalid_filename"
      validation_score := 0 }
  | some letter =>
    let r := transcribe stem
    if r.1 = [] then
      { file_path := stem
        expected_letter := [letter]
        transcribed_text := []
        is_match := false
        confidence := 0
        audio_duration_seconds := r.2.2
        error_type := some "transcription_failed"
        validation_score := 0 }
    else
      let m := matches_expected_letter r.1 letter
      { file_path := stem
        expected_letter := [letter]
        transcribed_text := r.1
        is_match := m
        confidence := r.2.1
        audio_duration_seconds := r.2.2
        error_type := if m then none else some "pronunciation_mismatch"
        validation_score := if m then 100 else r.2.1 * 100 }

/-- Variant of `matches_expected_letter` with the final single-character
branch (lines 205-207) removed; stated by claim C9 to be extensionally equal
to the original. -/
def matches_without_single_char (transcribed : List Char) (expected : Char) : Bool :=
  if transcribed = [] then false
  else
    let t := normalize_transcript transcribed
    if (get_valid_patterns expected).any (fun p => hasSubstr t p || hasSubstr p t) then
      true
    else
      false

/-! ## Batch counters of `validate_directory` (lines 270-383) and the
report summary (lines 385-420) -/

/-- Per-letter entry of the `letter_stats` defaultdict. -/
structure LetterCounters where
  total : Nat
  validated : Nat
  matched : Nat
  failed : Nat
deriving Repr, DecidableEq

/-- Global counter state of `validate_directory`; `letter_stats` models the
defaultdict with zero-initialised entries. -/
structure DirState where
  total_files : Nat
  validated_files : Nat
  matched_files : Nat
  failed_files : Nat
  letter_stats : Char → LetterCounters

/-- Initial counter state. -/
def init_dir_state : DirState :=
  { total_files := 0
    validated_files := 0
    matched_files := 0
    failed_files := 0
    letter_stats := fun _ => ⟨0, 0, 0, 0⟩ }

/-- Point update of the per-letter table. -/
def update_letter (f : Char → LetterCounters) (l : Char) (c : LetterCounters) :
    Char → LetterCounters :=
  fun x => if x = l then c else f x

/-- One iteration of the inner loop of `validate_directory` (lines 340-356):
validate the file, bump `validated`, then bump `matched` or `failed` both
globally and for the letter. -/
def process_file (tr : Transcriber) (letter : Char) (s : DirState)
    (stem : List Char) : DirState :=
  let r := validate_file stem tr
  let lc := s.letter_stats letter
  if r.is_match then
    { s with
      validated_files := s.validated_files + 1
      matched_files := s.matched_files + 1
      letter_stats := update_letter s.letter_stats letter
        { lc with validated := lc.validated + 1, matched := lc.matched + 1 } }
  else
    { s with
      validated_files := s.validated_files + 1
      failed_files := s.failed_files + 1
      letter_stats := update_letter s.letter_stats letter
        { lc with validated := lc.validated + 1, failed := lc.failed + 1 } }

/-- One iteration of the outer per-letter loop (lines 315-367): add the file
count to `total_files`, record the per-letter `total`, then fold the inner
loop over the files of the letter. -/
def process_letter (tr : Transcriber) (s : DirState)
    (dir : Char × List (List Char)) : DirState :=
  let s1 :=
    { s with
      total_files := s.total_files + dir.2.length
      letter_stats := update_letter s.letter_stats dir.1
        { s.letter_stats dir.1 with total := dir.2.length } }
  dir.2.foldl (process_file tr dir.1) s1

/-- Embedding of the counting behaviour of `validate_directory`: fold the
per-letter loop over the existing letter directories (given as letter /
file-stem-list pairs, after sampling). -/
def validate_directory (tr : Transcriber)
    (dirs : List (Char × List (List Char))) : DirState :=
  dirs.foldl (process_letter tr) init_dir_state

/-- Counter fields copied verbatim into the report `summary` block by
`generate_report` (lines 395-405). -/
structure ReportSummary where
  total_files : Nat
  validated_files : Nat
  matched_files : Nat
  failed_files : Nat
deriving Repr, DecidableEq

/-- The summary block of `generate_report`: a verbatim copy of the counter
state. -/
def report_summary (s : DirState) : ReportSummary :=
  { total_files := s.total_files
    validated_files := s.validated_files
    matched_files := s.matched_files
    failed_files := s.failed_files }

/-- Counter consistency invariant of claim C10: globally and for every
letter, `validated = matched + failed`. -/
def counters_consistent (s : DirState) : Prop :=
  s.validated_files = s.matched_files + s.failed_files ∧
  ∀ l, (s.letter_stats l).validated =
    (s.letter_stats l).matched + (s.letter_stats l).failed

/-! ## Helper lemmas -/

/-- The Python substring test agrees with `List.IsInfix`. -/
theorem hasSubstr_iff (s sub : List Char) : hasSubstr s sub = true ↔ sub <:+: s := by
  unfold hasSubstr
  rw [List.any_eq_true]
  constructor
  · rintro ⟨t, ht, hp⟩
    rw [List.mem_tails] at ht
    rw [ List.isPrefixOf_iff_prefix] at hp
    exact List.infix_iff_prefix_suffix.mpr ⟨t, hp, ht⟩
  · intro h
    obtain ⟨t, hp, ht⟩ := List.infix_iff_prefix_suffix.mp h
    exact ⟨t, (List.mem_tails t s).mpr ht, List.isPrefixOf_iff_prefix.mpr hp⟩

/-- The pattern loop of `matches_expected_letter` succeeds exactly when some
accepted variant is a substring of the normalized transcript or conversely. -/
theorem pattern_loop_iff (t : List Char) (expected : Char) :
    ((get_valid_patterns expected).any (fun p => hasSubstr t p || hasSubstr p t) = true) ↔
      ∃ p ∈ get_valid_patterns expected, p <:+: t ∨ t <:+: p := by
  rw [List.any_eq_true]
  constructor
  · rintro ⟨p, hp, h⟩
    rcases Bool.or_eq_true _ _ |>.mp h with h | h
    · exact ⟨p, hp, Or.inl ((hasSubstr_iff t p).mp h)⟩
    · exact ⟨p, hp, Or.inr ((hasSubstr_iff p t).mp h)⟩
  · rintro ⟨p, hp, h | h⟩
    · exact ⟨p, hp, Bool.or_eq_true _ _ |>.mpr (Or.inl ((hasSubstr_iff t p).mpr h))⟩
    · exact ⟨p, hp, Bool.or_eq_true _ _ |>.mpr (Or.inr ((hasSubstr_iff p t).mpr h))⟩

/-- Every accepted-variant list contains the lower-cased letter
itself, and the fallback for an unlisted key is exactly the singleton. -/
theorem toLower_mem_valid_patterns (c : Char) :
    [c.toLower] ∈ get_valid_patterns c := by
  unfold get_valid_patterns letter_patterns
  split <;> simp_all

/-- Two mergeSorts of permuted rational lists coincide. -/
theorem mergeSort_eq_of_perm (l₁ l₂ : List ℚ) (h : l₁.Perm l₂) :
    l₁.mergeSort (fun a b => a ≤ b) = l₂.mergeSort (fun a b => a ≤ b) := by
  have htrans : ∀ a b c : ℚ, decide (a ≤ b) = true → decide (b ≤ c) = true →
      decide (a ≤ c) = true := by
    intro a b c hab hbc
    simp at hab hbc ⊢
    exact hab.trans hbc
  have htot : ∀ a b : ℚ, (decide (a ≤ b) || decide (b ≤ a)) = true := by
    intro a b
    simp [le_total]
  have hsorted₁ : List.Sorted (fun a b : ℚ => a ≤ b)
      (l₁.mergeSort (fun a b => a ≤ b)) :=
    (List.sorted_mergeSort htrans htot l₁).imp (by simp)
  have hsorted₂ : List.Sorted (fun a b : ℚ => a ≤ b)
      (l₂.mergeSort (fun a b => a ≤ b)) :=
    (List.sorted_mergeSort htrans htot l₂).imp (by simp)
  exact List.eq_of_perm_of_sorted
    (((List.mergeSort_perm l₁ _).trans h).trans (List.mergeSort_perm l₂ _).symm)
    hsorted₁ hsorted₂

/-- Rounding an integer value is the identity. -/
theorem roundHalfEven_intCast (n : ℤ) : roundHalfEven (n : ℚ) = n := by
  unfold roundHalfEven
  norm_num

/-- Two-decimal rounding of an integer value is the identity. -/
theorem round2_intCast (n : ℤ) : round2 (n : ℚ) = n := by
  unfold round2
  rw [show ((n : ℚ) * 100) = ((n * 100 : ℤ) : ℚ) by push_cast; ring, roundHalfEven_intCast]
  push_cast
  ring

/-- The per-file counting step preserves the counter invariant. -/
theorem cc_process_file (tr : Transcriber) (letter : Char) (s : DirState)
    (stem : List Char) (h : counters_consistent s) :
    counters_consistent (process_file tr letter s stem) := by
  obtain ⟨hg, hl⟩ := h
  unfold process_file
  by_cases hm : (validate_file stem tr).is_match
  · refine ⟨by simp [hm, hg]; omega, fun l => ?_⟩
    simp only [hm, if_pos]
    unfold update_letter
    by_cases hle : l = letter
    · simp [hle, hl letter]; omega
    · simp [hle, hl l]
  · refine ⟨by simp [hm, hg]; omega, fun l => ?_⟩
    simp only [hm, if_neg]
    unfold update_letter
    by_cases hle : l = letter
    · simp [hle, hl letter]; omega
    · simp [hle, hl l]

/-- The per-letter step (total bookkeeping plus inner file loop) preserves
the counter invariant. -/
theorem cc_process_letter (tr : Transcriber) (s : DirState)
    (dir : Char × List (List Char)) (h : counters_consistent s) :
    counters_consistent (process_letter tr s dir) := by
  unfold process_letter
  have h1 : counters_consistent
      { s with
        total_files := s.total_files + dir.2.length
        letter_stats := update_letter s.letter_stats dir.1
          { s.letter_stats dir.1 with total := dir.2.length } } := by
    refine ⟨h.1, fun l => ?_⟩
    unfold update_letter
    by_cases hle : l = dir.1
    · simp [hle, h.2 dir.1]
    · simp [hle, h.2 l]
  generalize hs1 :
    ({ s with
        total_files := s.total_files + dir.2.length
        letter_stats := update_letter s.letter_stats dir.1
          { s.letter_stats dir.1 with total := dir.2.length } } : DirState) = s1 at h1 ⊢
  clear hs1 h
  induction dir.2 generalizing s1 with
  | nil => simpa using h1
  | cons a as ih => exact ih _ (cc_process_file tr dir.1 s1 a h1)

/-- Every fold of per-letter steps preserves the counter invariant. -/
theorem cc_validate_directory (tr : Transcriber)
    (dirs : List (Char × List (List Char))) :
    counters_consistent (validate_directory tr dirs) := by
  unfold validate_directory
  have hinit : counters_consistent init_dir_state := ⟨rfl, fun _ => rfl⟩
  generalize hs : init_dir_state = s0 at hinit ⊢
  clear hs
  induction dirs generalizing s0 with
  | nil => simpa using hinit
  | cons d ds ih => exact ih _ (cc_process_letter tr s0 d hinit)

/-! ## Claim theorems -/

/-- C2: for every expected letter A-Z and every non-empty transcript,
`matches_expected_letter` returns true iff, after normalization, some
accepted variant is a substring of the normalized transcript, or the
normalized transcript is a substring of some accepted variant, or the
normalized transcript is the single character equal to the lower-cased
expected letter. -/
theorem matches_expected_letter_spec (L : Char) (T : List Char)
    (_hL : 'A' ≤ L ∧ L ≤ 'Z') (hT : T ≠ []) :
    matches_expected_letter T L = true ↔
      ((∃ p ∈ get_valid_patterns L,
          p <:+: normalize_transcript T ∨ normalize_transcript T <:+: p) ∨
        normalize_transcript T = [L.toLower]) := by
  unfold matches_expected_letter
  rw [if_neg hT]
  by_cases hAny : (get_valid_patterns L).any
      (fun p => hasSubstr (normalize_transcript T) p ||
        hasSubstr p (normalize_transcript T)) = true
  · simp only [hAny, if_true]
    simp only [true_iff]
    exact Or.inl ((pattern_loop_iff _ L).mp hAny)
  · simp only [Bool.not_eq_true] at hAny
    simp only [hAny, Bool.false_eq_true, if_false]
    constructor
    · intro h
      split at h
      · next hc =>
        exact Or.inr hc.2
      · exact absurd h (by simp)
    · rintro (hex | heq)
      · exact absurd ((pattern_loop_iff _ L).mpr hex) (by simp [hAny])
      · rw [if_pos ⟨by rw [heq]; rfl, heq⟩]

/-- C2 witness: transcript "bee" for expected letter B. -/
theorem matches_expected_letter_spec_witness :
    matches_expected_letter ("bee".data) 'B' = true ↔
      ((∃ p ∈ get_valid_patterns 'B',
          p <:+: normalize_transcript ("bee".data) ∨
            normalize_transcript ("bee".data) <:+: p) ∨
        normalize_transcript ("bee".data) = ['B'.toLower]) :=
  matches_expected_letter_spec 'B' ("bee".data) (by decide) (by decide)

/-- C9: the final single-character branch of `matches_expected_letter` is
redundant: removing it yields the same function, because every
accepted-variant list (and the fallback for unlisted letters) contains the
lower-cased letter itself, so the bidirectional containment loop already
accepts every input that branch accepts. -/
theorem single_char_branch_redundant (T : List Char) (L : Char) :
    matches_expected_letter T L = matches_without_single_char T L := by
  unfold matches_expected_letter matches_without_single_char
  by_cases hT : T = []
  · simp [hT]
  · rw [if_neg hT, if_neg hT]
    by_cases hAny : (get_valid_patterns L).any
        (fun p => hasSubstr (normalize_transcript T) p ||
          hasSubstr p (normalize_transcript T)) = true
    · simp [hAny]
    · simp only [Bool.not_eq_true] at hAny
      simp only [hAny, Bool.false_eq_true, if_false]
      rw [if_neg]
      rintro ⟨-, heq⟩
      have hmem : [L.toLower] ∈ get_valid_patterns L := toLower_mem_valid_patterns L
      have : (get_valid_patterns L).any
          (fun p => hasSubstr (normalize_transcript T) p ||
            hasSubstr p (normalize_transcript T)) = true := by
        refine (pattern_loop_iff _ L).mpr ⟨[L.toLower], hmem, Or.inl ?_⟩
        rw [heq]
      simp [this] at hAny

/-- C3: every `ValidationResult` produced by `validate_file`, including the
invalid-filename and transcription-failed terminal states, scores 100 on a
match and `confidence * 100` (with the recorded confidence) otherwise. -/
theorem validation_score_invariant (stem : List Char) (tr : Transcriber) :
    (validate_file stem tr).validation_score =
      (if (validate_file stem tr).is_match
        then 100
        else (validate_file stem tr).confidence * 100) := by
  unfold validate_file
  cases hx : extract_letter_from_filename stem with
  | none => simp
  | some letter =>
    by_cases ht : (tr stem).1 = []
    · simp [ht]
    · by_cases hm : matches_expected_letter (tr stem).1 letter
      · simp [ht, hm]
      · simp [ht, hm]

/-- C6: for every decoded clip the clipping flag is true exactly when
`peak >= 0.99`, with the boundary exact at 0.99. -/
theorem clipping_flag_iff (stem : List Char) (duration rms peak sf : ℚ) :
    (check_file stem duration rms peak sf).is_clipping = true ↔ 99/100 ≤ peak := by
  simp [check_file]

/-- C7 counterexample: the normalization in the code keeps underscores (regex
`\w` includes them), so at transcript "a_b" the output contains a character
that is neither alphanumeric nor whitespace, refuting the claim as stated. -/
theorem normalization_keeps_underscore :
    '_' ∈ normalize_transcript ("a_b".data) ∧
      Char.isAlphanum '_' = false ∧ Char.isWhitespace '_' = false ∧
      pyIsSpace '_' = false := by
  decide

/-- C7 amended: the normalization removes every character that is neither a
word character (alphanumeric or underscore) nor whitespace; the result
contains only word characters and whitespace. -/
theorem normalization_only_word_or_space (s : List Char) (c : Char)
    (hc : c ∈ normalize_transcript s) :
    isWordChar c = true ∨ pyIsSpace c = true := by
  unfold normalize_transcript at hc
  rw [List.mem_filter] at hc
  exact Bool.or_eq_true _ _ |>.mp hc.2

/-- C7 witness: the character kept from transcript "a b!" is a word
character or whitespace. -/
theorem normalization_only_word_or_space_witness :
    isWordChar 'a' = true ∨ pyIsSpace 'a' = true :=
  normalization_only_word_or_space ("a b!".data) 'a' (by decide)

/-- C4: evaluation of the exit-code models at the inputs where the claim
fails.  The quality checker exits 0 when the root directory is missing and
when zero WAV files are found (the empty report is falsy and falls into the
success branch), although the claim demands exit 1 on fatal startup errors;
the `main` of the pronunciation validator contains no `sys.exit` at all, so it
exits 0 both on model-load failure and when mismatches were found, although
the claim demands exit 1 in both cases.  The quality checker does follow the
claim on its library-failure, issue and clean paths (last three
conjuncts). -/
theorem exit_code_divergence :
    quality_main_exit true false 0 false = 0 ∧
    quality_main_exit true true 0 false = 0 ∧
    validator_main_exit false true false = 0 ∧
    validator_main_exit true true true = 0 ∧
    quality_main_exit false true 5 false = 1 ∧
    quality_main_exit true true 5 true = 1 ∧
    quality_main_exit true true 5 false = 0 := by
  decide

/-- C8: the median duration in the summary is invariant under reordering of the
result list (the durations are sorted before indexing the middle
element). -/
theorem median_perm_invariant (rs₁ rs₂ : List AudioQualityResult)
    (_h₁ : rs₁ ≠ []) (h₂ : rs₁.Perm rs₂) :
    summary_median_duration rs₁ = summary_median_duration rs₂ := by
  unfold summary_median_duration
  have hmap : (rs₁.map (fun r => r.duration_sec)).Perm
      (rs₂.map (fun r => r.duration_sec)) := h₂.map _
  dsimp only
  rw [mergeSort_eq_of_perm _ _ hmap, hmap.length_eq]

/-- C8 witness: swapping two concrete results leaves the median unchanged. -/
theorem median_perm_invariant_witness :
    summary_median_duration
        [check_file ("x_a".data) 2 1 (1/2) 0, check_file ("x_a".data) 1 1 (1/2) 0] =
      summary_median_duration
        [check_file ("x_a".data) 1 1 (1/2) 0, check_file ("x_a".data) 2 1 (1/2) 0] :=
  median_perm_invariant _ _ (by simp) (List.Perm.swap _ _ [])

/-- C10: the per-file counting step preserves the invariant
`validated = matched + failed`, globally and for every letter, so the
invariant holds after every per-file iteration; after `validate_directory`
completes it holds for the final state and is reflected unchanged in the
report summary. -/
theorem directory_counter_invariant (tr : Transcriber) :
    (∀ s letter stem, counters_consistent s →
        counters_consistent (process_file tr letter s stem)) ∧
    (∀ dirs, counters_consistent (validate_directory tr dirs) ∧
        (report_summary (validate_directory tr dirs)).validated_files =
          (report_summary (validate_directory tr dirs)).matched_files +
            (report_summary (validate_directory tr dirs)).failed_files) := by
  refine ⟨fun s letter stem h => cc_process_file tr letter s stem h, fun dirs => ?_⟩
  have h := cc_validate_directory tr dirs
  exact ⟨h, h.1⟩

/-- C10 witness: one counting step from the initial state. -/
theorem directory_counter_invariant_witness :
    counters_consistent
      (process_file (fun _ => ([], 0, 0)) 'A' init_dir_state ("x_a".data)) :=
  (directory_counter_invariant (fun _ => ([], 0, 0))).1 init_dir_state 'A'
    ("x_a".data) ⟨rfl, fun _ => rfl⟩

/-- C1: for every decoded clip the recorded quality score equals
`round2 (clamp (100 - 15 * len(issues) - 10 * |duration - 1|) 0 100)`; in
particular a 0.2s clip with peak 0.999 (healthy RMS and silence fraction)
gets issues ["clipping", "too_short"] and score 62. -/
theorem quality_score_formula :
    (∀ stem duration rms peak sf,
      (check_file stem duration rms peak sf).quality_score =
        round2 (max 0 (min 100
          (100 - 15 * ((check_file stem duration rms peak sf).issues.length : ℚ) -
            10 * |duration - 1|)))) ∧
    ((check_file ("gtts_us_01_a".data) (1/5) (1/20) (999/1000) (1/50)).issues =
        ["clipping", "too_short"] ∧
      (check_file ("gtts_us_01_a".data) (1/5) (1/20) (999/1000) (1/50)).quality_score
        = 62) := by
  constructor
  · intro stem duration rms peak sf
    simp only [check_file]
    congr 3
    ring
  · constructor
    · simp only [check_file]
      norm_num
    · have habs : |(4:ℚ)/5| = 4/5 := abs_of_nonneg (by norm_num)
      simp only [check_file]
      norm_num [habs, min_def, max_def, round2, roundHalfEven]

/-- C5 counterexample: the stem "foo_A" does not end with an underscore
followed by a lowercase letter (its last character is uppercase), yet
`validate_file` does not return the invalid-filename terminal state: the
code lower-cases the stem before the regex search, extracts letter A, and
invokes the transcriber (whose output determines the result). -/
theorem invalid_filename_counterexample :
    (∀ c, c ∈ ("foo_A".data : List Char) →
      ¬(('a' ≤ c ∧ c ≤ 'z') ∧ ['_', c] <:+ ("foo_A".data : List Char))) ∧
    (validate_file ("foo_A".data) (fun _ => ([], 0, 0))).expected_letter = "A".data ∧
    (validate_file ("foo_A".data) (fun _ => ([], 0, 0))).error_type =
      some "transcription_failed" ∧
    (validate_file ("foo_A".data) (fun _ => ("ay".data, 0, 0))).error_type = none := by
  refine ⟨by decide, by decide, by decide, by decide⟩

/-- C5 amended: for every audio path whose lower-cased filename stem does
not end with an underscore followed by exactly one lowercase letter
(optionally followed by a single trailing newline, per Python `$`
semantics), `validate_file` returns the terminal result with
expected_letter "UNKNOWN", error_type "invalid_filename", is_match false
and validation_score 0, independently of the transcription backend, which
is never consulted. -/
theorem invalid_filename_terminal (stem : List Char) (tr : Transcriber)
    (h : ∀ c, c ∈ stem.map Char.toLower →
      ¬(('a' ≤ c ∧ c ≤ 'z') ∧
        (['_', c] <:+ stem.map Char.toLower ∨
          ['_', c, '\n'] <:+ stem.map Char.toLower))) :
    validate_file stem tr =
      { file_path := stem
        expected_letter := "UNKNOWN".data
        transcribed_text := []
        is_match := false
        confidence := 0
        audio_duration_seconds := 0
        error_type := some "invalid_filename"
        validation_score := 0 } := by
  have hnone : find_trailing_letter (stem.map Char.toLower) = none := by
    cases h₀ : find_trailing_letter (stem.map Char.toLower) with
    | none => rfl
    | some c =>
      exfalso
      unfold find_trailing_letter at h₀
      split at h₀
      · next c₁ l heq =>
        by_cases hc : 'a' ≤ c₁ ∧ c₁ ≤ 'z'
        · have hmem : c₁ ∈ stem.map Char.toLower := by
            rw [← List.mem_reverse, heq]
            simp
          refine h c₁ hmem ⟨hc, Or.inr ?_⟩
          rw [← List.reverse_prefix]
          rw [heq]
          simp
        · rw [if_neg hc] at h₀
          exact Option.noConfusion h₀
      · next c₁ tl hne heq =>
        by_cases hc : 'a' ≤ c₁ ∧ c₁ ≤ 'z'
        · have hmem : c₁ ∈ stem.map Char.toLower := by
            rw [← List.mem_reverse, heq]
            simp
          refine h c₁ hmem ⟨hc, Or.inl ?_⟩
          rw [← List.reverse_prefix]
          rw [heq]
          simp
        · rw [if_neg hc] at h₀
          exact Option.noConfusion h₀
      · exact Option.noConfusion h₀
  simp [validate_file, extract_letter_from_filename, hnone]

/-- C5 witness: the stem "foo_bar" is rejected before transcription. -/
theorem invalid_filename_terminal_witness :
    validate_file ("foo_bar".data) (fun _ => ("ay".data, 1, 1)) =
      { file_path := "foo_bar".data
        expected_letter := "UNKNOWN".data
        transcribed_text := []
        is_match := false
        confidence := 0
        audio_duration_seconds := 0
        error_type := some "invalid_filename"
        validation_score := 0 } :=
  invalid_filename_terminal ("foo_bar".data) (fun _ => ("ay".data, 1, 1)) (by decide)

end TTSLetters
